/-
  Verification of the exit-condition subsystem of ggs67/iputils
  (src/ping/ping_exit.c, src/ping/ping_exit.h).

  The C code is shallowly embedded: the descriptor struct becomes a Lean
  structure, size_t becomes Nat, long (EXIT_COUNTER_TYPE) becomes Int,
  C strings become List Char indexed through `cidx` (reading past the end
  yields the NUL character, matching a terminated C string), the heap
  buffer `ping_map` becomes an Option (List Char) of length map_size+1
  (NULL = none), fatal `parse_error`/assert paths become `Except.error`,
  and the `while` loops of the parser become fuel-indexed recursion
  (the wrappers pass fuel that dominates the loop bounds).
-/
import Mathlib

set_option maxRecDepth 10000

deriving instance DecidableEq for Except

/-! ## Constants from ping_exit.h -/

def EXIT_COUNT_FAILED : Nat := 1
def EXIT_SEQUENCE : Nat := 2
def EXIT_COND_STATUS : Nat := 4
def EXIT_REPORT_SUCCESS : Nat := 8
def EXIT_REPORT_FAILURES : Nat := 16
def EXIT_REPORT_MAP : Nat := 32
def EXIT_REPORT_SILENT : Nat := 64
def EXIT_REPORT_STATE : Nat := 128

def EXIT_COND_LOC_FLAGS : Nat := EXIT_SEQUENCE

def EXIT_REPORT_FLAGS : Nat :=
  EXIT_REPORT_SUCCESS ||| EXIT_REPORT_FAILURES ||| EXIT_REPORT_MAP ||| EXIT_REPORT_STATE

def EXIT_DEFAULT_SUCCESS_MAP : Char := '+'
def EXIT_DEFAULT_FAILURE_MAP : Char := '-'

-- EXIT_COND_OPTIONS "xnNmqc" (strchr membership)
def EXIT_COND_OPTIONS : List Char := ['x', 'n', 'N', 'm', 'q', 'c']

def EXIT_COND_DEFAULT_MAP_SIZE : Nat := 100
def EXIT_COND_MAX_INITIAL_MAP_SIZE : Nat := 512
def EXIT_COND_MAP_EXTENSION : Nat := 512

/-- The NUL character, i.e. the C string terminator. -/
def nulChar : Char := Char.ofNat 0

/-- Heap garbage in freshly malloc/realloc'ed bytes, modelled as one fixed
    nonzero byte (the code never reads an uninitialized byte in a way that
    influences its output, so any fixed value is a faithful model). -/
def mallocChar : Char := Char.ofNat 1

/-- C-string indexing: `s[i]`, with reads at or past the terminator
    returning NUL. -/
def cidx (s : List Char) (i : Nat) : Char := s.getD i nulChar

/-! ## struct exit_condition -/

structure exit_condition where
  expect : Int            -- EXIT_COUNTER_TYPE (long)
  ntransmitted : Int
  nreceived : Int
  sequence : Int
  condition_met : Bool    -- int used as a boolean
  map_chars : Char × Char -- map_chars[2]: .1 = [0] = failed, .2 = [1] = success
  map_size : Nat          -- size_t
  max_map_size : Nat      -- size_t
  ping_map : Option (List Char) -- NULL = none; some buffer has map_size+1 bytes
  mapper_pos : Nat        -- size_t
  flags : Nat             -- uint16_t
deriving DecidableEq, Repr

/-- INIT_EXIT_CONDITION from ping_exit.h. -/
def INIT_EXIT_CONDITION : exit_condition :=
  { expect := 0
    ntransmitted := 0
    nreceived := 0
    sequence := 0
    condition_met := false
    map_chars := (EXIT_DEFAULT_FAILURE_MAP, EXIT_DEFAULT_SUCCESS_MAP)
    map_size := 0
    max_map_size := EXIT_COND_DEFAULT_MAP_SIZE
    ping_map := none
    mapper_pos := 0
    flags := 0 }

def get_exit_cond_success (cond : exit_condition) : Int := cond.nreceived
def get_exit_cond_failures (cond : exit_condition) : Int :=
  cond.ntransmitted - cond.nreceived

/-! ## Ring Buffer Map: extend_ping_map, map_ping, print_ping_map -/

/-- extend_ping_map from ping_exit.c.  Allocation is modelled by a list of
    map_size+1 bytes of heap garbage; realloc keeps the old bytes and appends
    garbage.  The final line writes the NUL wrap marker at map_size-1. -/
def extend_ping_map (cond : exit_condition) : exit_condition :=
  match cond.ping_map with
  | none =>
      let msize := if cond.max_map_size ≤ EXIT_COND_MAX_INITIAL_MAP_SIZE then
                     cond.max_map_size
                   else EXIT_COND_MAX_INITIAL_MAP_SIZE
      let buf := (List.replicate (msize + 1) mallocChar).set (msize - 1) nulChar
      { cond with map_size := msize, ping_map := some buf, mapper_pos := 0 }
  | some buf =>
      if cond.map_size ≥ cond.max_map_size then cond
      else
        let msize := if cond.map_size + EXIT_COND_MAP_EXTENSION > cond.max_map_size
                     then cond.max_map_size
                     else cond.map_size + EXIT_COND_MAP_EXTENSION
        let buf := (buf ++ List.replicate (msize - cond.map_size) mallocChar).set
                     (msize - 1) nulChar
        { cond with map_size := msize, ping_map := some buf }

/-- map_ping from ping_exit.c.  `status` is the C int used as a boolean. -/
def map_ping (cond : exit_condition) (status : Bool) : exit_condition :=
  let c := if status then cond.map_chars.2 else cond.map_chars.1
  let pos := cond.mapper_pos
  let cond := if pos = cond.map_size then extend_ping_map cond else cond
  let pos := if pos = cond.map_size then 0 else pos
  match cond.ping_map with
  | some buf => { cond with ping_map := some (buf.set pos c), mapper_pos := pos + 1 }
  | none => cond   -- NULL dereference in C; unreachable in the program

/-- The output of `fputs(buf + i, stdout)`: the bytes from index i up to the
    first NUL. -/
def cstr (buf : List Char) (i : Nat) : List Char :=
  (buf.drop i).takeWhile (fun c => c ≠ nulChar)

/-- print_ping_map from ping_exit.c with dbg = FALSE.  Returns the printed
    characters together with the (possibly temporarily mutated and restored)
    descriptor. -/
def print_ping_map (cond : exit_condition) : List Char × exit_condition :=
  match cond.ping_map with
  | none => ([], cond)   -- NULL dereference in C; unreachable in the program
  | some buf =>
      let map_size := cond.map_size
      let mapper_pos := cond.mapper_pos
      if cidx buf (map_size - 1) ≠ nulChar ∧ mapper_pos < map_size then
        -- wrapped: print end of the ring, then the beginning
        let buf1 := buf.set map_size nulChar
        let out1 := cstr buf1 mapper_pos
        let keep := cidx buf1 mapper_pos
        let buf2 := buf1.set mapper_pos nulChar
        let out2 := cstr buf2 0
        let buf3 := buf2.set mapper_pos keep
        (out1 ++ out2, { cond with ping_map := some buf3 })
      else
        let buf1 := buf.set mapper_pos nulChar
        (cstr buf1 0, { cond with ping_map := some buf1 })

/-! ## Incremental Evaluator: _check_exit_condition, check_exit_condition -/

/-- _check_exit_condition from ping_exit.c (the rts counter arguments are
    passed explicitly).  The failed `assert(!(nsuccess==1) != !(nfailure==1))`
    becomes `Except.error ()`. -/
def _check_exit_condition (cond : exit_condition) (ntransmitted nreceived : Int) :
    Except Unit (Bool × exit_condition) :=
  let nsuccess : Int := nreceived - cond.nreceived
  let nfailure : Int := ntransmitted - cond.ntransmitted - nsuccess
  if nsuccess = 0 ∧ nfailure = 0 then Except.ok (false, cond)
  else if (nsuccess = 1) ↔ (nfailure = 1) then Except.error ()
  else
    let cond := { cond with ntransmitted := ntransmitted, nreceived := nreceived }
    let status : Bool := decide (nsuccess > 0)
    let cond := if cond.flags &&& EXIT_REPORT_MAP ≠ 0 then map_ping cond status else cond
    if cond.flags &&& EXIT_SEQUENCE ≠ 0 then
      let seq : Int :=
        if cond.flags &&& EXIT_COUNT_FAILED ≠ 0 then
          (if status then 0 else cond.sequence + 1)
        else
          (if status then cond.sequence + 1 else 0)
      let cond := { cond with sequence := seq }
      Except.ok (decide (cond.sequence = cond.expect), cond)
    else
      if cond.flags &&& EXIT_COUNT_FAILED ≠ 0 then
        Except.ok (decide (cond.ntransmitted - cond.nreceived ≥ cond.expect), cond)
      else
        Except.ok (decide (cond.nreceived ≥ cond.expect), cond)

/-- check_exit_condition from ping_exit.c; the global
    `global_exit_cond_status` is threaded explicitly as `g`. -/
def check_exit_condition (cond : exit_condition) (g : Int)
    (ntransmitted nreceived : Int) :
    Except Unit (Bool × exit_condition × Int) :=
  match _check_exit_condition cond ntransmitted nreceived with
  | Except.error e => Except.error e
  | Except.ok (false, cond) => Except.ok (false, cond, g)
  | Except.ok (true, cond) =>
      Except.ok (true, { cond with condition_met := true },
                 if g = 0 then 1 else g)

/-! ## Grammar Parser: parse_args, parse_opt, parse_exit_cond -/

/-- isdigit on the characters that occur in option strings. -/
def isdigitc (c : Char) : Bool := decide ('0' ≤ c ∧ c ≤ '9')

/-- size_t arithmetic wraps at 2^64. -/
def SIZE_T_MOD : Nat := 2 ^ 64

/-- The body of parse_args's `while(++pos < end)` loop for option 'm'
    (ping_exit.c).  `phase`, `mapSize` and `pos` are the loop-carried C
    locals; the final fuel argument dominates the loop count. -/
def parse_args_loop (args : List Char) (start endp : Nat) (cond : exit_condition)
    (phase : Nat) (mapSize : Nat) (pos : Nat) : Nat → Except Unit exit_condition
  | 0 => Except.ok cond
  | fuel + 1 =>
    let pos := pos + 1
    if pos < endp then
      let c := cidx args pos
      match phase with
      | 1 =>
        if isdigitc c then
          parse_args_loop args start endp cond 1
            ((mapSize * 10 + (c.toNat - 48)) % SIZE_T_MOD) pos fuel
        else if c ≠ ':' then Except.error ()
        else if mapSize < 1 ∧ pos > start then Except.error ()
        else parse_args_loop args start endp cond 2 mapSize pos fuel
      | 2 =>
        if endp - pos ≠ 2 then Except.error ()
        else
          -- map_chars[SUCCESS_IDX] = args[pos++]; map_chars[FAILED_IDX] = args[pos];
          let cond := { cond with map_chars := (cidx args (pos + 1), cidx args pos) }
          let pos := pos + 1
          -- if(mapSize) cond->max_map_size = mapSize;  (reached only via the
          -- phase-2 `break`; the digit branch `continue`s past it)
          let cond := if mapSize ≠ 0 then { cond with max_map_size := mapSize } else cond
          parse_args_loop args start endp cond 2 mapSize pos fuel
      | _ =>
        let cond := if mapSize ≠ 0 then { cond with max_map_size := mapSize } else cond
        parse_args_loop args start endp cond phase mapSize pos fuel
    else Except.ok cond

/-- parse_args from ping_exit.c. -/
def parse_args (cond : exit_condition) (opt : Char) (args : List Char)
    (start endp : Nat) : Except Unit exit_condition :=
  if start < 1 then Except.ok cond
  else
    match opt with
    | 'm' => parse_args_loop args start endp cond 1 0 (start - 1) (endp + 1)
    | _ => Except.ok cond

/-- The `while (arg[++pos] != ')')` scan in parse_opt; returns the index
    of the closing parenthesis. -/
def scan_rparen (arg : List Char) (pos : Nat) : Nat → Except Unit Nat
  | 0 => Except.error ()
  | fuel + 1 =>
    let pos := pos + 1
    if cidx arg pos = ')' then Except.ok pos
    else if cidx arg pos = nulChar then Except.error ()
    else scan_rparen arg pos fuel

/-- parse_opt from ping_exit.c.  The global `global_exit_cond_status` is
    threaded as `g`; the returned Nat is the updated `pos` (index of the
    last consumed character). -/
def parse_opt (cond : exit_condition) (g : Int) (arg : List Char) (pos : Nat) :
    Except Unit (exit_condition × Int × Nat) :=
  let opt := cidx arg pos
  let modifier : Char := ' '
  let (modifier, opt, pos) :=
    if opt = '-' ∨ opt = '+' then (opt, cidx arg (pos + 1), pos + 1)
    else (modifier, opt, pos)
  if opt = nulChar then Except.error ()
  else if ¬ opt ∈ EXIT_COND_OPTIONS then Except.error ()
  else if modifier ≠ ' ' ∧ opt ≠ 'n' then Except.error ()
  else
    match (if cidx arg (pos + 1) = '(' then
             match scan_rparen arg (pos + 1) (arg.length + 2) with
             | Except.error e => Except.error e
             | Except.ok p => Except.ok (pos + 2, p)
           else Except.ok (0, pos) : Except Unit (Nat × Nat)) with
    | Except.error e => Except.error e
    | Except.ok (argPos, pos) =>
      if argPos > 0 ∧ opt ≠ 'm' then Except.error ()
      else
        match opt with
        | 'x' =>
            Except.ok ({ cond with flags := cond.flags ||| EXIT_COND_STATUS }, 0, pos)
        | 'n' =>
            let modifier := if modifier = ' ' then
                              (if cond.flags &&& EXIT_COUNT_FAILED ≠ 0 then '+' else '-')
                            else modifier
            let cond := if modifier = '+' then
                          { cond with flags := cond.flags ||| EXIT_REPORT_SUCCESS }
                        else cond
            let cond := if modifier = '-' then
                          { cond with flags := cond.flags ||| EXIT_REPORT_FAILURES }
                        else cond
            Except.ok (cond, g, pos)
        | 'N' =>
            Except.ok ({ cond with
              flags := cond.flags ||| (EXIT_REPORT_SUCCESS ||| EXIT_REPORT_FAILURES) },
              g, pos)
        | 'm' =>
            let cond := { cond with flags := cond.flags ||| EXIT_REPORT_MAP,
                                    max_map_size := EXIT_COND_DEFAULT_MAP_SIZE }
            match parse_args cond 'm' arg argPos pos with
            | Except.error e => Except.error e
            | Except.ok cond => Except.ok (extend_ping_map cond, g, pos)
        | 'c' =>
            Except.ok ({ cond with flags := cond.flags ||| EXIT_REPORT_STATE }, g, pos)
        | 'q' =>
            Except.ok ({ cond with flags := cond.flags ||| EXIT_REPORT_SILENT }, g, pos)
        | _ => Except.ok (cond, g, pos)  -- unreachable: opt ∈ EXIT_COND_OPTIONS

/-- The `while (opt[++pos])` loop of parse_exit_cond, including the final
    `expect < 1` check.  `phase` and `pos` are the C locals (bpos is the
    constant 0); the fall-through from phase 1 to phase 2 re-examines the
    same character with phase set to 2. -/
def parse_loop (opt : List Char) (cond : exit_condition) (g : Int)
    (phase : Nat) (pos : Nat) : Nat → Except Unit (exit_condition × Int)
  | 0 => Except.error ()   -- fuel exhaustion; unreachable for the wrapper's fuel
  | fuel + 1 =>
    let c := cidx opt pos
    if c = nulChar then
      if cond.expect < 1 then Except.error () else Except.ok (cond, g)
    else
      match phase with
      | 1 =>
        if pos = 0 ∧ c = '-' then
          parse_loop opt { cond with flags := cond.flags ||| EXIT_COUNT_FAILED }
            g 1 (pos + 1) fuel
        else if isdigitc c then
          parse_loop opt { cond with expect := cond.expect * 10 + (c.toNat - 48) }
            g 1 (pos + 1) fuel
        else if pos = 0 then Except.error ()
        else parse_loop opt cond g 2 pos fuel
      | 2 =>
        if c = ':' then parse_loop opt cond g 3 (pos + 1) fuel
        else if cond.flags &&& EXIT_COND_LOC_FLAGS ≠ 0 then Except.error ()
        else if c = 's' then
          parse_loop opt { cond with flags := cond.flags ||| EXIT_SEQUENCE }
            g 2 (pos + 1) fuel
        else Except.error ()
      | _ =>
        match parse_opt cond g opt pos with
        | Except.error e => Except.error e
        | Except.ok (cond, g, pos) => parse_loop opt cond g phase (pos + 1) fuel

/-- parse_exit_cond from ping_exit.c (fatal parse_error = Except.error). -/
def parse_exit_cond (opt : List Char) (g : Int) : Except Unit (exit_condition × Int) :=
  parse_loop opt INIT_EXIT_CONDITION g 1 0 (opt.length + 4)

/-! ## Report Formatter: report, print_exit_cond_report -/

/-- report from ping_exit.c: the static `_app` flag is threaded explicitly
    (the caller passes `first=TRUE` as `app := false`); returns the new
    `_app`, the emitted text, and the descriptor (print_ping_map may touch
    its buffer). -/
def report (cond : exit_condition) (app : Bool) (display : Bool)
    (fmt : Option String) : Bool × String × exit_condition :=
  if ¬ display then (app, "", cond)
  else
    let sep : String := if app then "/" else ""
    match fmt with
    | some s => (true, sep ++ s, cond)
    | none =>
        let r := print_ping_map cond
        (true, sep ++ String.mk r.1, r.2)

/-- print_exit_cond_report from ping_exit.c; returns the emitted line. -/
def print_exit_cond_report (cond : exit_condition) (force : Bool) :
    String × exit_condition :=
  if ¬ force ∧ cond.flags &&& EXIT_REPORT_FLAGS = 0 then ("", cond)
  else
    -- C source line 279: if((cond->flags && EXIT_REPORT_SILENT)==0) printf("exit condition report:");
    -- The operator in the source is the logical one, so the test is `flags == 0`.
    let label : String :=
      if ¬ (cond.flags ≠ 0 ∧ EXIT_REPORT_SILENT ≠ 0) then "exit condition report:"
      else ""
    let r1 := report cond false (cond.flags &&& EXIT_REPORT_STATE != 0)
                (some (if cond.condition_met then "T" else "F"))
    let r2 := report r1.2.2 r1.1 (cond.flags &&& EXIT_REPORT_SUCCESS != 0)
                (some (toString (get_exit_cond_success cond)))
    let r3 := report r2.2.2 r2.1 (cond.flags &&& EXIT_REPORT_FAILURES != 0)
                (some (toString (get_exit_cond_failures cond)))
    let r4 := report r3.2.2 r3.1 (cond.flags &&& EXIT_REPORT_MAP != 0) none
    (label ++ r1.2.1 ++ r2.2.1 ++ r3.2.1 ++ r4.2.1 ++ "\n", r4.2.2)

/-! ## Exit Status Translator -/

/-- exit_cond_status_update from ping_exit.c; the `_exit` of a translated
    code and the `return status` are both modelled as the resulting process
    exit code.  `g` is global_exit_cond_status. -/
def exit_cond_status_update (g : Int) (status : Nat) : Nat :=
  if status &&& 0xfffffffe ≠ 0 then status
  else if g ≥ 0 then (if g ≠ 0 then 0 else 1)
  else status

/-! ## Probe-loop harness for trace claims -/

/-- One probe-loop callback: the loop completes one probe with outcome `b`
    (advancing the rts totals by one transmission and, on success, one
    reception) and then calls the evaluator, as the callback contract
    requires.  State is (descriptor, ntransmitted, nreceived). -/
def feed_eval (s : exit_condition × Int × Int) (b : Bool) :
    Except Unit (Bool × exit_condition × Int × Int) :=
  let nt := s.2.1 + 1
  let nr := if b then s.2.2 + 1 else s.2.2
  match _check_exit_condition s.1 nt nr with
  | Except.error e => Except.error e
  | Except.ok (res, cond) => Except.ok (res, cond, nt, nr)

/-- Feeding a whole outcome sequence, collecting each call's result. -/
def run_eval (s : exit_condition × Int × Int) :
    List Bool → Except Unit (List Bool × (exit_condition × Int × Int))
  | [] => Except.ok ([], s)
  | b :: bs =>
    match feed_eval s b with
    | Except.error e => Except.error e
    | Except.ok (res, s') =>
      match run_eval s' bs with
      | Except.error e => Except.error e
      | Except.ok (results, sf) => Except.ok (res :: results, sf)

/-- One full check_exit_condition call on (descriptor, global status); an
    assertion failure terminates the process, so the state is frozen. -/
def eval_call (s : exit_condition × Int) (p : Int × Int) : exit_condition × Int :=
  match check_exit_condition s.1 s.2 p.1 p.2 with
  | Except.error _ => s
  | Except.ok (_, cond, g) => (cond, g)

def run_calls (s : exit_condition × Int) (calls : List (Int × Int)) :
    exit_condition × Int :=
  calls.foldl eval_call s

/-- Definition following the spec's words, for the refinement comparison of
    claim C6: CUMULATIVE-mode satisfaction recomputed from scratch from the
    total counts — satisfied iff the running total of the targeted outcome
    kind (successes if COUNT_SUCCESS, transmitted-minus-received failures if
    COUNT_FAILURE) is >= expect. -/
def spec_cumulative_satisfied (countFailed : Bool) (expect : Int)
    (outcomes : List Bool) : Bool :=
  let transmitted : Int := outcomes.length
  let received : Int := outcomes.count true
  if countFailed then decide (transmitted - received ≥ expect)
  else decide (received ≥ expect)

/-! ## Invariant predicates for the Ring Buffer Map -/

/-- The spec's Ring Buffer Map invariant `0 <= writePos <= capacity <=
    maxCapacity` (the lower bound is implicit in the Nat model of size_t). -/
def rb_inv (cond : exit_condition) : Prop :=
  cond.mapper_pos ≤ cond.map_size ∧ cond.map_size ≤ cond.max_map_size

/-- rb_inv together with the auxiliary facts the code maintains alongside it:
    maxCapacity is at least 1 and size/writePos are zero while the buffer is
    still unallocated. -/
def rb_ok (cond : exit_condition) : Prop :=
  rb_inv cond ∧ 1 ≤ cond.max_map_size ∧
    (cond.ping_map = none → cond.map_size = 0 ∧ cond.mapper_pos = 0)

instance (cond : exit_condition) : Decidable (rb_inv cond) := by
  unfold rb_inv; infer_instance

instance (cond : exit_condition) : Decidable (rb_ok cond) := by
  unfold rb_ok; infer_instance

/-! ## Claim C1 (code bug): `m(<size>)` without a glyph section never stores
    the size.  The `if(mapSize) cond->max_map_size = mapSize;` statement at
    the bottom of parse_args's loop body is unreachable from the digit branch
    (which `continue`s), so it only runs after a glyph section was parsed. -/

/-- C1: parsing "10:m(200)" succeeds but leaves max_map_size at the default
    100 instead of the requested 200 — the claim (and the source's own usage
    comment) says the decimal size should become maxCapacity. -/
theorem c1_m_size_ignored :
    (parse_exit_cond ("10:m(200)".toList) (-1)).toOption.map
      (fun p => p.1.max_map_size) = some 100 := by decide

/-! ## Claim C2 (corrected): glyph override order. -/

/-- C2 counterexample: for "3:m(5:ab)" the code stores 'a' (the first glyph
    character) as the SUCCESS character and 'b' as the FAILED character, so
    the claim "failure glyph equals the first character" is false:
    map_chars = (failed, success) = ('b', 'a'), not ('a', 'b'). -/
theorem c2_counterexample :
    (parse_exit_cond ("3:m(5:ab)".toList) (-1)).toOption.map
      (fun p => p.1.map_chars) = some ('b', 'a') ∧
    ('b', 'a') ≠ ('a', 'b') := ⟨by decide, by decide⟩

/-! ## Claim C3 (code bug): the report label.  Line 279 of ping_exit.c uses
    the logical operator in `(cond->flags && EXIT_REPORT_SILENT)==0`, so the
    label is emitted iff flags == 0 — never when a report option is set. -/

def c3_cond : exit_condition := { INIT_EXIT_CONDITION with flags := EXIT_REPORT_STATE }

/-- C3: a descriptor that requested the state report ('c') and not SILENT
    still gets a bare "F\n" line, without the fixed label. -/
theorem c3_label_missing :
    c3_cond.flags &&& EXIT_REPORT_SILENT = 0 ∧
    c3_cond.flags &&& EXIT_REPORT_FLAGS ≠ 0 ∧
    (print_exit_cond_report c3_cond false).1 = "F\n" := by decide

/-! ## Claim C4 (code bug): the one-probe-per-call assertion.  The source
    asserts `!(nsuccess==1) != !(nfailure==1)` — an XOR of the two ==1
    tests — which PASSES for deltas like (1,2), although the comment above
    it says only an advancement of 1 is expected. -/

def c4_cond : exit_condition := { INIT_EXIT_CONDITION with expect := 5 }

/-- C4: a call whose deltas are (nsuccess, nfailure) = (1, 2) — reached from
    stored counters (0,0) with rts totals ntransmitted=3, nreceived=1 — is
    NOT caught by the assertion: the call is processed as a normal success
    outcome, contradicting the claim that the error branch is reached. -/
theorem c4_assert_not_triggered :
    (1 : Int) - c4_cond.nreceived = 1 ∧
    (3 : Int) - c4_cond.ntransmitted - 1 = 2 ∧
    _check_exit_condition c4_cond 3 1 =
      Except.ok (false, { c4_cond with ntransmitted := 3, nreceived := 1 }) := by
  decide

/-! ## Claim C5 (corrected): the Ring Buffer invariant can be broken by a
    repeated 'm' option, because parse_opt resets max_map_size to the
    default 100 before reading the new arguments while the already
    allocated buffer keeps its size. -/

/-- C5 counterexample: parsing "3:m(200:ab)m" succeeds and ends with
    map_size = 200 but max_map_size = 100, violating
    map_size ≤ max_map_size. -/
theorem c5_counterexample :
    (parse_exit_cond ("3:m(200:ab)m".toList) (-1)).toOption.map
      (fun p => (p.1.map_size, p.1.max_map_size)) = some (200, 100) ∧
    ¬ (200 : Nat) ≤ 100 := ⟨by decide, by decide⟩

/-! ## Claim C8: ring map of maxCapacity 5, 7 outcomes, non-destructive
    render of the last 5 glyphs. -/

/-- Descriptor pre-configured for map reporting with maxCapacity 5 (the
    first record allocates its buffer lazily). -/
def c8_start : exit_condition :=
  { INIT_EXIT_CONDITION with flags := EXIT_REPORT_MAP, max_map_size := 5 }

/-- The default glyph for an outcome. -/
def c8_glyph (b : Bool) : Char := if b then '+' else '-'

/-- Recording a list of outcomes, oldest first. -/
def c8_record (l : List Bool) : exit_condition := l.foldl map_ping c8_start

set_option maxHeartbeats 2000000 in
/-- C8: recording any 7 outcomes into a maxCapacity-5 map and rendering
    yields exactly the glyphs of the last 5 outcomes in chronological order;
    rendering again returns the same output and leaves the state fixed, and
    the first render leaves the 5 stored glyph slots untouched. -/
theorem c8_ring_map_render (o1 o2 o3 o4 o5 o6 o7 : Bool) :
    (print_ping_map (c8_record [o1, o2, o3, o4, o5, o6, o7])).1
        = [c8_glyph o3, c8_glyph o4, c8_glyph o5, c8_glyph o6, c8_glyph o7] ∧
    print_ping_map ((print_ping_map (c8_record [o1, o2, o3, o4, o5, o6, o7])).2)
        = print_ping_map (c8_record [o1, o2, o3, o4, o5, o6, o7]) ∧
    ((print_ping_map (c8_record [o1, o2, o3, o4, o5, o6, o7])).2).ping_map.map
        (fun b => b.take 5)
      = (c8_record [o1, o2, o3, o4, o5, o6, o7]).ping_map.map (fun b => b.take 5) := by
  cases o1 <;> cases o2 <;> cases o3 <;> cases o4 <;> cases o5 <;> cases o6 <;>
    cases o7 <;> decide

/-! ## Claim C10: exit status translation -/

/-- A 32-bit int whose bits under the mask 0xfffffffe all vanish is 0 or 1
    (the characterization behind `status & 0xfffffffe`). -/
theorem and_fffffffe_eq_zero {n : Nat} (hn : n < 2 ^ 32)
    (h : n &&& 0xfffffffe = 0) : n = 0 ∨ n = 1 := by
  have h2 : n / 2 &&& 0x7fffffff = 0 := by
    have := congrArg (fun m => m / 2) h
    simpa [Nat.and_div_two] using this
  have h3 : n / 2 % 2 ^ 31 = 0 := by
    have hm : (0x7fffffff : Nat) = 2 ^ 31 - 1 := by norm_num
    rw [hm, Nat.and_pow_two_sub_one_eq_mod] at h2
    exact h2
  have h4 : n / 2 < 2 ^ 31 := by omega
  have h5 : n / 2 = 0 := by
    rw [Nat.mod_eq_of_lt h4] at h3
    exact h3
  omega

/-- C10: with the override armed (g ≥ 0, i.e. 0 = unmet or 1 = met) a normal
    exit code 0 or 1 is replaced by 0 iff the condition was met and 1 iff it
    was not; any other 32-bit exit code passes through unchanged; and with the
    override never armed (g < 0) every code is preserved. -/
theorem c10_status_translation :
    (∀ (g : Int) (status : Nat), (g = 0 ∨ g = 1) → (status = 0 ∨ status = 1) →
        exit_cond_status_update g status = (if g = 1 then 0 else 1)) ∧
    (∀ (g : Int) (status : Nat), status < 2 ^ 32 → ¬(status = 0 ∨ status = 1) →
        exit_cond_status_update g status = status) ∧
    (∀ (g : Int) (status : Nat), g < 0 → exit_cond_status_update g status = status) := by
  refine ⟨?_, ?_, ?_⟩
  · rintro g status (rfl | rfl) (rfl | rfl) <;> decide
  · intro g status hlt hne
    unfold exit_cond_status_update
    rw [if_pos]
    intro hz
    exact hne (and_fffffffe_eq_zero hlt hz)
  · intro g status hg
    unfold exit_cond_status_update
    split
    · rfl
    · rw [if_neg]
      omega

/-! ## Field-preservation lemmas for the Ring Buffer operations -/

theorem extend_ping_map_fields (c : exit_condition) :
    (extend_ping_map c).expect = c.expect ∧
    (extend_ping_map c).ntransmitted = c.ntransmitted ∧
    (extend_ping_map c).nreceived = c.nreceived ∧
    (extend_ping_map c).sequence = c.sequence ∧
    (extend_ping_map c).condition_met = c.condition_met ∧
    (extend_ping_map c).flags = c.flags ∧
    (extend_ping_map c).map_chars = c.map_chars ∧
    (extend_ping_map c).max_map_size = c.max_map_size := by
  unfold extend_ping_map
  rcases h : c.ping_map with _ | buf
  · simp [h]
  · simp only [h]
    split <;> simp

theorem map_ping_fields (c : exit_condition) (s : Bool) :
    (map_ping c s).expect = c.expect ∧
    (map_ping c s).ntransmitted = c.ntransmitted ∧
    (map_ping c s).nreceived = c.nreceived ∧
    (map_ping c s).sequence = c.sequence ∧
    (map_ping c s).condition_met = c.condition_met ∧
    (map_ping c s).flags = c.flags ∧
    (map_ping c s).map_chars = c.map_chars ∧
    (map_ping c s).max_map_size = c.max_map_size := by
  obtain ⟨e1, e2, e3, e4, e5, e6, e7, e8⟩ := extend_ping_map_fields c
  unfold map_ping
  by_cases hp : c.mapper_pos = c.map_size
  · rcases hm : (extend_ping_map c).ping_map with _ | buf <;>
      simp [hp, hm, e1, e2, e3, e4, e5, e6, e7, e8]
  · rcases hm : c.ping_map with _ | buf <;> simp [hp, hm]

theorem map_ping_condition_met (c : exit_condition) (s : Bool) :
    (map_ping c s).condition_met = c.condition_met :=
  (map_ping_fields c s).2.2.2.2.1

/-! ## Claim C7: SEQUENCE-mode streak update -/

/-- Following the spec's words for SEQUENCE mode: the streak after one
    outcome `b` — incremented when the outcome matches the targeted counting
    mode, reset to 0 otherwise. -/
def spec_streak_step (cond : exit_condition) (b : Bool) : Int :=
  if (if cond.flags &&& EXIT_COUNT_FAILED ≠ 0 then !b else b) = true then
    cond.sequence + 1
  else 0

/-- C7: for every well-formed evaluator call in SEQUENCE mode (the caller
    advanced the totals by exactly one probe with outcome `b`), the updated
    streak is the spec streak — incremented on a matching outcome and reset
    to 0 on a non-matching one — and the call reports satisfaction exactly
    when the updated streak equals `expect`. -/
theorem c7_sequence_step (cond : exit_condition) (b : Bool) (nt nr : Int)
    (hseq : cond.flags &&& EXIT_SEQUENCE ≠ 0)
    (hnt : nt = cond.ntransmitted + 1)
    (hnr : nr = cond.nreceived + (if b then 1 else 0)) :
    ∃ cond', _check_exit_condition cond nt nr
        = Except.ok (decide (spec_streak_step cond b = cond.expect), cond') ∧
      cond'.sequence = spec_streak_step cond b := by
  subst hnt hnr
  unfold _check_exit_condition spec_streak_step
  cases b
  case false =>
    simp only [Bool.false_eq_true, if_false, ite_false, add_zero, sub_self,
      add_sub_cancel_left, sub_zero]
    norm_num
    obtain ⟨g1, g2, g3, g4, g5, g6, g7, g8⟩ := map_ping_fields
      { cond with ntransmitted := cond.ntransmitted + 1, nreceived := cond.nreceived } false
    by_cases hmap : cond.flags &&& EXIT_REPORT_MAP = 0 <;>
      by_cases hcf : cond.flags &&& EXIT_COUNT_FAILED = 0 <;>
      simp only [hmap, hcf, hseq, ite_true, ite_false, if_true, if_false, g1, g4, g6,
        Bool.not_false, Bool.not_true, eq_self_iff_true, not_true, not_false_iff] <;>
      exact ⟨_, rfl, by simp⟩
  case true =>
    norm_num
    obtain ⟨g1, g2, g3, g4, g5, g6, g7, g8⟩ := map_ping_fields
      { cond with ntransmitted := cond.ntransmitted + 1, nreceived := cond.nreceived + 1 } true
    by_cases hmap : cond.flags &&& EXIT_REPORT_MAP = 0 <;>
      by_cases hcf : cond.flags &&& EXIT_COUNT_FAILED = 0 <;>
      simp only [hmap, hcf, hseq, ite_true, ite_false, if_true, if_false, g1, g4, g6,
        Bool.not_false, Bool.not_true, eq_self_iff_true, not_true, not_false_iff] <;>
      exact ⟨_, rfl, by simp⟩

def c7w : exit_condition :=
  { INIT_EXIT_CONDITION with expect := 2, flags := EXIT_SEQUENCE, sequence := 1 }

theorem c7_sequence_step_witness :
    ∃ cond', _check_exit_condition c7w 1 1
        = Except.ok (decide (spec_streak_step c7w true = c7w.expect), cond') ∧
      cond'.sequence = spec_streak_step c7w true :=
  c7_sequence_step c7w true 1 1 (by decide) (by decide) (by decide)

/-! ## Claim C6: CUMULATIVE mode refines from-scratch recomputation -/

/-- The evaluator's per-step results in CUMULATIVE mode, computed directly
    from the running totals carried along (nt, nr). -/
def cumulResults (cf : Bool) (e : Int) : Int → Int → List Bool → List Bool
  | _, _, [] => []
  | nt, nr, b :: bs =>
      let nt' := nt + 1
      let nr' := nr + (if b then 1 else 0)
      (if cf then decide (nt' - nr' ≥ e) else decide (nr' ≥ e)) ::
        cumulResults cf e nt' nr' bs

theorem feed_eval_cumul (cond : exit_condition) (b : Bool)
    (hseq : cond.flags &&& EXIT_SEQUENCE = 0) :
    ∃ cond', feed_eval (cond, cond.ntransmitted, cond.nreceived) b
        = Except.ok ((if (cond.flags &&& EXIT_COUNT_FAILED != 0)
             then decide ((cond.ntransmitted + 1) -
                    (cond.nreceived + (if b then 1 else 0)) ≥ cond.expect)
             else decide ((cond.nreceived + (if b then 1 else 0)) ≥ cond.expect)),
           cond', cond.ntransmitted + 1, cond.nreceived + (if b then 1 else 0)) ∧
      cond'.flags = cond.flags ∧ cond'.expect = cond.expect ∧
      cond'.ntransmitted = cond.ntransmitted + 1 ∧
      cond'.nreceived = cond.nreceived + (if b then 1 else 0) := by
  unfold feed_eval _check_exit_condition
  cases b
  case false =>
    simp only [Bool.false_eq_true, if_false, ite_false, add_zero, sub_self,
      add_sub_cancel_left, sub_zero]
    norm_num
    obtain ⟨g1, g2, g3, g4, g5, g6, g7, g8⟩ := map_ping_fields
      { cond with ntransmitted := cond.ntransmitted + 1, nreceived := cond.nreceived } false
    by_cases hmap : cond.flags &&& EXIT_REPORT_MAP = 0 <;>
      by_cases hcf : cond.flags &&& EXIT_COUNT_FAILED = 0 <;>
      simp only [hmap, hcf, hseq, ite_true, ite_false, if_true, if_false, g1, g2, g3, g6,
        bne_iff_ne, ne_eq, eq_self_iff_true, not_true, not_false_iff,
        decide_not, Bool.not_eq_true, add_sub_add_right_eq_sub] <;>
      refine ⟨_, rfl, ?_, ?_, ?_, ?_⟩ <;> first | rfl | simp [g1, g2, g3, g6]
  case true =>
    norm_num
    obtain ⟨g1, g2, g3, g4, g5, g6, g7, g8⟩ := map_ping_fields
      { cond with ntransmitted := cond.ntransmitted + 1, nreceived := cond.nreceived + 1 } true
    by_cases hmap : cond.flags &&& EXIT_REPORT_MAP = 0 <;>
      by_cases hcf : cond.flags &&& EXIT_COUNT_FAILED = 0 <;>
      simp only [hmap, hcf, hseq, ite_true, ite_false, if_true, if_false, g1, g2, g3, g6,
        bne_iff_ne, ne_eq, eq_self_iff_true, not_true, not_false_iff,
        decide_not, Bool.not_eq_true, add_sub_add_right_eq_sub] <;>
      refine ⟨_, rfl, ?_, ?_, ?_, ?_⟩ <;> first | rfl | simp [g1, g2, g3, g6]

theorem run_eval_cumul (outcomes : List Bool) :
    ∀ (cond : exit_condition) (nt nr : Int),
    cond.flags &&& EXIT_SEQUENCE = 0 →
    cond.ntransmitted = nt → cond.nreceived = nr →
    ∃ sf, run_eval (cond, nt, nr) outcomes
      = Except.ok (cumulResults (cond.flags &&& EXIT_COUNT_FAILED != 0)
          cond.expect nt nr outcomes, sf) := by
  induction outcomes with
  | nil => intro cond nt nr _ _ _; exact ⟨(cond, nt, nr), rfl⟩
  | cons b bs ih =>
    intro cond nt nr hseq hnt hnr
    subst hnt; subst hnr
    obtain ⟨cond2, hfeed, hfl, hex, hnt2, hnr2⟩ := feed_eval_cumul cond b hseq
    obtain ⟨sf, hrest⟩ := ih cond2 (cond.ntransmitted + 1)
        (cond.nreceived + (if b then 1 else 0)) (by rw [hfl]; exact hseq) hnt2 hnr2
    rw [hfl, hex] at hrest
    refine ⟨sf, ?_⟩
    simp only [run_eval, hfeed, hrest, cumulResults]

theorem cumulResults_spec (outcomes : List Bool) :
    ∀ (done : List Bool) (cf : Bool) (e : Int),
    cumulResults cf e (done.length : Int) (done.count true : Int) outcomes
      = (List.range outcomes.length).map
          (fun i => spec_cumulative_satisfied cf e (done ++ outcomes.take (i + 1))) := by
  induction outcomes with
  | nil => intro done cf e; simp [cumulResults]
  | cons b bs ih =>
    intro done cf e
    simp only [cumulResults, List.length_cons, List.range_succ_eq_map, List.map_cons,
      List.map_map]
    rw [List.cons_eq_cons]
    refine ⟨?_, ?_⟩
    · cases cf <;> cases b <;>
        simp [spec_cumulative_satisfied, List.count_append]
    · have htail := ih (done ++ [b]) cf e
      have h1 : (((done ++ [b]).length : Nat) : Int) = (done.length : Int) + 1 := by
        simp [List.length_append]
      have h2 : (((done ++ [b]).count true : Nat) : Int)
          = (done.count true : Int) + (if b then 1 else 0) := by
        cases b <;> simp [List.count_append]
      rw [h1, h2] at htail
      rw [htail]
      refine List.map_congr_left ?_
      intro i _
      simp [Function.comp, List.take_succ_cons, List.append_assoc]

/-- C6: feeding any sequence of well-formed probe outcomes to the evaluator
    in CUMULATIVE mode yields, at every step, exactly the satisfaction value
    recomputed from scratch over the prefix so far: satisfied iff the running
    total of the targeted outcome kind (successes for COUNT_SUCCESS,
    transmitted-minus-received failures for COUNT_FAILURE) is >= expect. -/
theorem c6_cumulative_refinement (e : Int) (flags : Nat) (outcomes : List Bool)
    (hseq : flags &&& EXIT_SEQUENCE = 0) :
    ∃ sf, run_eval ({ INIT_EXIT_CONDITION with expect := e, flags := flags }, 0, 0) outcomes
      = Except.ok ((List.range outcomes.length).map
          (fun i => spec_cumulative_satisfied (flags &&& EXIT_COUNT_FAILED != 0) e
            (outcomes.take (i + 1))), sf) := by
  obtain ⟨sf, h⟩ := run_eval_cumul outcomes
    { INIT_EXIT_CONDITION with expect := e, flags := flags } 0 0 hseq
    (by simp [INIT_EXIT_CONDITION]) (by simp [INIT_EXIT_CONDITION])
  refine ⟨sf, ?_⟩
  rw [h]
  have hspec := cumulResults_spec outcomes [] (flags &&& EXIT_COUNT_FAILED != 0) e
  simp only [List.length_nil, List.count_nil, Nat.cast_zero, List.nil_append] at hspec
  simp only [hspec]

theorem c6_cumulative_refinement_witness :
    ∃ sf, run_eval ({ INIT_EXIT_CONDITION with expect := 2, flags := 0 }, 0, 0)
        [true, false, true]
      = Except.ok ([false, false, true], sf) := by
  obtain ⟨sf, h⟩ := c6_cumulative_refinement 2 0 [true, false, true] (by decide)
  refine ⟨sf, ?_⟩
  rw [h]
  have : (List.range ([true, false, true] : List Bool).length).map
      (fun i => spec_cumulative_satisfied ((0 : Nat) &&& EXIT_COUNT_FAILED != 0) 2
        (([true, false, true] : List Bool).take (i + 1))) = [false, false, true] := by
    decide
  rw [this]

/-! ## Claim C9: monotonicity of condition_met and the global status -/

theorem _check_condition_met (cond : exit_condition) (nt nr : Int) (res : Bool)
    (c' : exit_condition) (h : _check_exit_condition cond nt nr = Except.ok (res, c')) :
    c'.condition_met = cond.condition_met := by
  unfold _check_exit_condition at h
  simp only [ne_eq] at h
  split at h
  · simp only [Except.ok.injEq, Prod.mk.injEq] at h
    rw [← h.2]
  · split at h
    · exact Except.noConfusion h
    · repeat' split at h
      all_goals simp only [Except.ok.injEq, Prod.mk.injEq] at h
      all_goals rw [← h.2]
      all_goals simp [map_ping_condition_met]

theorem check_step (cond : exit_condition) (g nt nr : Int) (res : Bool)
    (c' : exit_condition) (g' : Int)
    (h : check_exit_condition cond g nt nr = Except.ok (res, c', g')) :
    (cond.condition_met = true → c'.condition_met = true) ∧ g ≤ g' := by
  unfold check_exit_condition at h
  rcases hc : _check_exit_condition cond nt nr with e | ⟨rb, cc⟩ <;> rw [hc] at h
  · exact Except.noConfusion h
  · cases rb
    · simp only [Except.ok.injEq, Prod.mk.injEq] at h
      obtain ⟨-, h2, h3⟩ := h
      subst h2; subst h3
      refine ⟨fun hm => ?_, le_refl g⟩
      rw [_check_condition_met cond nt nr false cc hc]
      exact hm
    · simp only [Except.ok.injEq, Prod.mk.injEq] at h
      obtain ⟨-, h2, h3⟩ := h
      subst h2; subst h3
      refine ⟨fun _ => rfl, ?_⟩
      split <;> omega

theorem eval_call_step (s : exit_condition × Int) (p : Int × Int) :
    (s.1.condition_met = true → (eval_call s p).1.condition_met = true) ∧
    s.2 ≤ (eval_call s p).2 := by
  unfold eval_call
  rcases hc : check_exit_condition s.1 s.2 p.1 p.2 with e | ⟨rb, cc, gg⟩
  · exact ⟨fun hm => hm, le_refl _⟩
  · obtain ⟨h1, h2⟩ := check_step s.1 s.2 p.1 p.2 rb cc gg hc
    exact ⟨h1, h2⟩

theorem run_calls_mono (calls : List (Int × Int)) :
    ∀ s : exit_condition × Int,
    (s.1.condition_met = true → (run_calls s calls).1.condition_met = true) ∧
    s.2 ≤ (run_calls s calls).2 := by
  induction calls with
  | nil => intro s; exact ⟨fun hm => hm, le_refl _⟩
  | cons p ps ih =>
    intro s
    obtain ⟨h1, h2⟩ := eval_call_step s p
    obtain ⟨h3, h4⟩ := ih (eval_call s p)
    exact ⟨fun hm => h3 (h1 hm), le_trans h2 h4⟩

set_option maxHeartbeats 3200000 in
theorem parse_opt_g (cond : exit_condition) (g : Int) (arg : List Char) (pos : Nat)
    (c' : exit_condition) (g' : Int) (p' : Nat)
    (h : parse_opt cond g arg pos = Except.ok (c', g', p')) : g' = g ∨ g' = 0 := by
  unfold parse_opt at h
  simp only [ne_eq] at h
  repeat' split at h
  all_goals first
    | exact Except.noConfusion h
    | (simp only [Except.ok.injEq, Prod.mk.injEq] at h; omega)

theorem parse_loop_g (fuel : Nat) :
    ∀ (opt : List Char) (cond : exit_condition) (g : Int) (phase pos : Nat)
      (r : exit_condition × Int),
    parse_loop opt cond g phase pos fuel = Except.ok r → r.2 = g ∨ r.2 = 0 := by
  induction fuel with
  | zero =>
    intro opt cond g phase pos r h
    exact Except.noConfusion h
  | succ f ih =>
    intro opt cond g phase pos r h
    unfold parse_loop at h
    simp only [ne_eq] at h
    split at h
    · split at h
      · exact Except.noConfusion h
      · simp only [Except.ok.injEq] at h
        left; rw [← h]
    · split at h
      · split at h
        · exact ih _ _ _ _ _ _ h
        · split at h
          · exact ih _ _ _ _ _ _ h
          · split at h
            · exact Except.noConfusion h
            · exact ih _ _ _ _ _ _ h
      · split at h
        · exact ih _ _ _ _ _ _ h
        · split at h
          · exact Except.noConfusion h
          · split at h
            · exact ih _ _ _ _ _ _ h
            · exact Except.noConfusion h
      · split at h
        · exact Except.noConfusion h
        · rename_i cnd2 gg pp hopt
          rcases parse_opt_g cond g opt pos cnd2 gg pp hopt with h1 | h1 <;>
            rcases ih _ _ _ _ _ _ h with h2 | h2 <;> subst h1 <;> omega

/-- C9: (i) parsing an option string from the disabled state (-1) can only
    leave the global exit-status state disabled (-1) or armed-unmet (0);
    (ii) once condition_met is true it remains true over any further sequence
    of evaluator calls, whatever the supplied totals; (iii) over any sequence
    of evaluator calls the global state never decreases along
    disabled (-1) → armed-unmet (0) → armed-met (1). -/
theorem c9_monotonic :
    (∀ (opt : List Char) (r : exit_condition × Int),
        parse_exit_cond opt (-1) = Except.ok r → r.2 = -1 ∨ r.2 = 0) ∧
    (∀ (s : exit_condition × Int) (calls : List (Int × Int)),
        s.1.condition_met = true → (run_calls s calls).1.condition_met = true) ∧
    (∀ (s : exit_condition × Int) (calls : List (Int × Int)),
        s.2 ≤ (run_calls s calls).2) := by
  refine ⟨?_, ?_, ?_⟩
  · intro opt r h
    exact parse_loop_g _ _ _ _ _ _ _ h
  · intro s calls hm
    exact (run_calls_mono calls s).1 hm
  · intro s calls
    exact (run_calls_mono calls s).2

theorem c9_monotonic_witness :
    ((0 : Int) = -1 ∨ (0 : Int) = 0) ∧
    (run_calls ({ INIT_EXIT_CONDITION with expect := 1, condition_met := true }, 0)
        [(1, 1)]).1.condition_met = true ∧
    (0 : Int) ≤ (run_calls ({ INIT_EXIT_CONDITION with expect := 1 }, 0) [(1, 1)]).2 := by
  refine ⟨?_, ?_, ?_⟩
  · exact c9_monotonic.1 ("3:x".toList)
      ({ INIT_EXIT_CONDITION with expect := 3, flags := EXIT_COND_STATUS }, 0)
      (by decide)
  · exact c9_monotonic.2.1 _ [(1, 1)] rfl
  · exact c9_monotonic.2.2 _ [(1, 1)]

/-! ## Claim C5: the Ring Buffer invariant -/

theorem extend_rb_ok (cond : exit_condition) (h : rb_ok cond) :
    rb_ok (extend_ping_map cond) := by
  obtain ⟨⟨h1, h2⟩, h3, h4⟩ := h
  unfold rb_ok rb_inv extend_ping_map
  rcases hm : cond.ping_map with _ | buf
  · simp only [hm]
    refine ⟨⟨Nat.zero_le _, ?_⟩, h3, fun hx => absurd hx (by simp)⟩
    split <;> (try simp) <;> omega
  · simp only [hm]
    split
    · exact ⟨⟨h1, h2⟩, h3, fun hx => by rw [hm] at hx; exact Option.noConfusion hx⟩
    · refine ⟨⟨?_, ?_⟩, h3, fun hx => by exact Option.noConfusion hx⟩
      · split <;> (try simp) <;> omega
      · split <;> (try simp) <;> omega

theorem extend_size_lt (cond : exit_condition) (h : rb_ok cond)
    (hlt : cond.map_size < cond.max_map_size) :
    cond.map_size < (extend_ping_map cond).map_size := by
  obtain ⟨⟨h1, h2⟩, h3, h4⟩ := h
  unfold extend_ping_map
  rcases hm : cond.ping_map with _ | buf
  · obtain ⟨hz, -⟩ := h4 hm
    simp only [hm]
    show cond.map_size < (if cond.max_map_size ≤ EXIT_COND_MAX_INITIAL_MAP_SIZE then
      cond.max_map_size else EXIT_COND_MAX_INITIAL_MAP_SIZE)
    have hC : EXIT_COND_MAX_INITIAL_MAP_SIZE = 512 := rfl
    split <;> omega
  · simp only [hm]
    rw [if_neg (by omega)]
    show cond.map_size < (if cond.map_size + EXIT_COND_MAP_EXTENSION > cond.max_map_size
      then cond.max_map_size else cond.map_size + EXIT_COND_MAP_EXTENSION)
    have hC : EXIT_COND_MAP_EXTENSION = 512 := rfl
    split <;> omega

theorem extend_full_eq (cond : exit_condition) (buf : List Char)
    (hm : cond.ping_map = some buf) (hfull : cond.map_size ≥ cond.max_map_size) :
    extend_ping_map cond = cond := by
  unfold extend_ping_map
  simp only [hm]
  rw [if_pos hfull]

theorem map_ping_rb_ok (cond : exit_condition) (s : Bool) (h : rb_ok cond) :
    rb_ok (map_ping cond s) := by
  obtain ⟨⟨h1, h2⟩, h3, h4⟩ := h
  have hE := extend_rb_ok cond ⟨⟨h1, h2⟩, h3, h4⟩
  unfold map_ping
  dsimp only
  by_cases hp : cond.mapper_pos = cond.map_size
  · rw [if_pos hp]
    by_cases hfull : cond.map_size ≥ cond.max_map_size
    · rcases hm : cond.ping_map with _ | buf
      · obtain ⟨hz, -⟩ := h4 hm
        omega
      · rw [extend_full_eq cond buf hm hfull, if_pos hp]
        simp only [hm]
        refine ⟨⟨?_, ?_⟩, ?_, ?_⟩
        · show 0 + 1 ≤ cond.map_size
          omega
        · exact h2
        · exact h3
        · intro hx; exact Option.noConfusion hx
    · have hlt := extend_size_lt cond ⟨⟨h1, h2⟩, h3, h4⟩ (by omega)
      have hpos : ¬ cond.mapper_pos = (extend_ping_map cond).map_size := by omega
      rw [if_neg hpos]
      obtain ⟨⟨k1, k2⟩, k3, k4⟩ := hE
      rcases he : (extend_ping_map cond).ping_map with _ | buf2
      · obtain ⟨hz, -⟩ := k4 he
        omega
      · simp only [he]
        refine ⟨⟨?_, ?_⟩, ?_, ?_⟩
        · show cond.mapper_pos + 1 ≤ (extend_ping_map cond).map_size
          omega
        · exact k2
        · exact k3
        · intro hx; exact Option.noConfusion hx
  · rw [if_neg hp, if_neg hp]
    rcases hm : cond.ping_map with _ | buf
    · obtain ⟨hz, hzp⟩ := h4 hm
      exact absurd (hzp.trans hz.symm) hp
    · simp only [hm]
      refine ⟨⟨?_, ?_⟩, ?_, ?_⟩
      · show cond.mapper_pos + 1 ≤ cond.map_size
        omega
      · exact h2
      · exact h3
      · intro hx; exact Option.noConfusion hx

theorem parse_args_loop_fields (fuel : Nat) :
    ∀ (args : List Char) (start endp : Nat) (cond : exit_condition)
      (phase mapSize pos : Nat) (c2 : exit_condition),
    parse_args_loop args start endp cond phase mapSize pos fuel = Except.ok c2 →
    c2.ping_map = cond.ping_map ∧ c2.map_size = cond.map_size ∧
    c2.mapper_pos = cond.mapper_pos ∧
    (c2.max_map_size = cond.max_map_size ∨ c2.max_map_size ≠ 0) := by
  induction fuel with
  | zero =>
    intro args start endp cond phase mapSize pos c2 h
    simp only [parse_args_loop, Except.ok.injEq] at h
    subst h
    exact ⟨rfl, rfl, rfl, Or.inl rfl⟩
  | succ f ih =>
    intro args start endp cond phase mapSize pos c2 h
    unfold parse_args_loop at h
    dsimp only at h
    split at h
    · split at h
      · split at h
        · exact ih _ _ _ _ _ _ _ _ h
        · split at h
          · exact Except.noConfusion h
          · split at h
            · exact Except.noConfusion h
            · exact ih _ _ _ _ _ _ _ _ h
      · split at h
        · exact Except.noConfusion h
        · obtain ⟨t1, t2, t3, t4⟩ := ih _ _ _ _ _ _ _ _ h
          by_cases hms : mapSize ≠ 0
          · rw [if_pos hms] at t1 t2 t3 t4
            refine ⟨t1, t2, t3, Or.inr ?_⟩
            rcases t4 with e | e
            · rw [e]; exact hms
            · exact e
          · rw [if_neg hms] at t1 t2 t3 t4
            exact ⟨t1, t2, t3, t4⟩
      · obtain ⟨t1, t2, t3, t4⟩ := ih _ _ _ _ _ _ _ _ h
        by_cases hms : mapSize ≠ 0
        · rw [if_pos hms] at t1 t2 t3 t4
          refine ⟨t1, t2, t3, Or.inr ?_⟩
          rcases t4 with e | e
          · rw [e]; exact hms
          · exact e
        · rw [if_neg hms] at t1 t2 t3 t4
          exact ⟨t1, t2, t3, t4⟩
    · simp only [Except.ok.injEq] at h
      subst h
      exact ⟨rfl, rfl, rfl, Or.inl rfl⟩

theorem parse_args_fields (cond : exit_condition) (opt : Char) (args : List Char)
    (start endp : Nat) (c2 : exit_condition)
    (h : parse_args cond opt args start endp = Except.ok c2) :
    c2.ping_map = cond.ping_map ∧ c2.map_size = cond.map_size ∧
    c2.mapper_pos = cond.mapper_pos ∧
    (c2.max_map_size = cond.max_map_size ∨ c2.max_map_size ≠ 0) := by
  unfold parse_args at h
  split at h
  · simp only [Except.ok.injEq] at h
    subst h
    exact ⟨rfl, rfl, rfl, Or.inl rfl⟩
  · split at h
    · exact parse_args_loop_fields _ _ _ _ _ _ _ _ _ h
    · simp only [Except.ok.injEq] at h
      subst h
      exact ⟨rfl, rfl, rfl, Or.inl rfl⟩

theorem extend_none_rb_ok (c : exit_condition) (hm : c.ping_map = none)
    (h1 : 1 ≤ c.max_map_size) : rb_ok (extend_ping_map c) := by
  unfold rb_ok rb_inv extend_ping_map
  simp only [hm]
  refine ⟨⟨Nat.zero_le _, ?_⟩, h1, fun hx => absurd hx (by simp)⟩
  split <;> (try simp) <;> omega

theorem parse_opt_m_rb_ok (cond : exit_condition) (g : Int) (arg : List Char)
    (pos : Nat) (c9 : exit_condition) (g9 : Int) (p9 : Nat)
    (hnone : cond.ping_map = none) (hopt : cidx arg pos = 'm')
    (h : parse_opt cond g arg pos = Except.ok (c9, g9, p9)) : rb_ok c9 := by
  unfold parse_opt at h
  rw [hopt] at h
  simp only [ne_eq] at h
  rw [if_neg (by decide : ¬(('m' : Char) = '-' ∨ ('m' : Char) = '+'))] at h
  dsimp only at h
  rw [if_neg (by decide : ¬('m' : Char) = nulChar)] at h
  rw [if_neg (by decide : ¬('m' : Char) ∉ EXIT_COND_OPTIONS)] at h
  rw [if_neg (by decide : ¬(¬(' ' : Char) = ' ' ∧ ¬('m' : Char) = 'n'))] at h
  split at h
  · exact Except.noConfusion h
  · rename_i x argPos pos1 heq
    rw [if_neg (by simp : ¬(argPos > 0 ∧ ¬('m' : Char) = 'm'))] at h
    split at h
    · rename_i heq2; exact absurd heq2 (by decide)
    · rename_i heq2; exact absurd heq2 (by decide)
    · rename_i heq2; exact absurd heq2 (by decide)
    · split at h
      · exact Except.noConfusion h
      · rename_i c2 hpa
        simp only [Except.ok.injEq, Prod.mk.injEq] at h
        obtain ⟨hc9, -, -⟩ := h
        subst hc9
        obtain ⟨f1, f2, f3, f4⟩ := parse_args_fields _ _ _ _ _ _ hpa
        refine extend_none_rb_ok c2 ?_ ?_
        · rw [f1]; exact hnone
        · rcases f4 with e | e
          · rw [e]
            show (1 : Nat) ≤ EXIT_COND_DEFAULT_MAP_SIZE
            decide
          · omega
    · rename_i heq2; exact absurd heq2 (by decide)
    · rename_i heq2; exact absurd heq2 (by decide)
    · rename_i hx hn hN hmm hq hc
      exact absurd rfl hmm

/-- C5 (amended): the invariant 0 ≤ writePos ≤ capacity ≤ maxCapacity is
    preserved by every extend step and every record step, and is established
    by parsing an 'm' option on a descriptor whose map is not yet allocated
    (i.e. whose option string requests the map at most once; the
    counterexample shows a repeated 'm' option can break
    capacity ≤ maxCapacity). -/
theorem c5_invariant :
    (∀ cond : exit_condition, rb_ok cond → rb_ok (extend_ping_map cond)) ∧
    (∀ (cond : exit_condition) (s : Bool), rb_ok cond → rb_ok (map_ping cond s)) ∧
    (∀ (cond : exit_condition) (g : Int) (arg : List Char) (pos : Nat)
       (c' : exit_condition) (g' : Int) (p' : Nat),
       cond.ping_map = none → cidx arg pos = 'm' →
       parse_opt cond g arg pos = Except.ok (c', g', p') → rb_ok c') :=
  ⟨extend_rb_ok, map_ping_rb_ok, parse_opt_m_rb_ok⟩

def c5w : exit_condition :=
  { INIT_EXIT_CONDITION with flags := EXIT_REPORT_MAP, max_map_size := 5 }

def c5_parsed : exit_condition :=
  { INIT_EXIT_CONDITION with
    flags := EXIT_REPORT_MAP
    max_map_size := 5
    map_size := 5
    mapper_pos := 0
    map_chars := ('b', 'a')
    ping_map := some ((List.replicate 6 mallocChar).set 4 nulChar) }

theorem c5_invariant_witness :
    rb_ok (extend_ping_map c5w) ∧ rb_ok (map_ping c5w true) ∧ rb_ok c5_parsed := by
  refine ⟨c5_invariant.1 c5w ?_, c5_invariant.2.1 c5w true ?_, ?_⟩
  · unfold rb_ok rb_inv c5w; decide
  · unfold rb_ok rb_inv c5w; decide
  · exact c5_invariant.2.2 INIT_EXIT_CONDITION (-1) ("m(5:ab)".toList) 0
      c5_parsed (-1) 6 rfl (by decide) (by decide)

/-! ## Claim C2 (amended theorem): glyph override order in parse_args -/

/-- Value accumulated by parse_args's size digits (size_t arithmetic). -/
def digitsVal (acc : Nat) (ds : List Char) : Nat :=
  ds.foldl (fun a c => (a * 10 + (c.toNat - 48)) % SIZE_T_MOD) acc

theorem cidx_append (pre l : List Char) (k : Nat) :
    cidx (pre ++ l) (pre.length + k) = cidx l k := by
  unfold cidx
  rw [List.getD_append_right pre l nulChar (pre.length + k) (by omega)]
  congr 1
  omega

theorem parse_args_loop_glyphs (ds : List Char) :
    ∀ (pre post : List Char) (c1 c2 : Char) (cond : exit_condition)
      (acc start fuel : Nat),
    1 ≤ pre.length →
    (∀ d ∈ ds, isdigitc d = true) →
    (1 ≤ digitsVal acc ds ∨ pre.length + ds.length ≤ start) →
    ds.length + 3 ≤ fuel →
    parse_args_loop (pre ++ ds ++ ':' :: c1 :: c2 :: post) start
        (pre.length + ds.length + 3) cond 1 acc (pre.length - 1) fuel
      = Except.ok (if digitsVal acc ds ≠ 0
          then { cond with map_chars := (c2, c1), max_map_size := digitsVal acc ds }
          else { cond with map_chars := (c2, c1) }) := by
  induction ds with
  | nil =>
    intro pre post c1 c2 cond acc start fuel hpre hdig hguard hfuel
    obtain ⟨f, rfl⟩ : ∃ f, fuel = f + 3 := ⟨fuel - 3, by omega⟩
    have hargs : pre ++ [] ++ ':' :: c1 :: c2 :: post
        = pre ++ ':' :: c1 :: c2 :: post := by simp
    rw [hargs]
    simp only [List.length_nil, Nat.add_zero]
    simp only [parse_args_loop]
    have hp1 : pre.length - 1 + 1 = pre.length := by omega
    rw [hp1]
    rw [if_pos (by omega : pre.length < pre.length + 3)]
    have hc : cidx (pre ++ ':' :: c1 :: c2 :: post) (pre.length) = ':' := by
      have := cidx_append pre (':' :: c1 :: c2 :: post) 0
      simpa using this
    rw [hc]
    rw [if_neg (by decide : ¬ isdigitc ':' = true)]
    rw [if_neg (by decide : ¬ ((':' : Char) ≠ ':'))]
    have hguard2 : ¬ (acc < 1 ∧ pre.length > start) := by
      simp only [digitsVal, List.foldl_nil] at hguard
      simp only [List.length_nil, Nat.add_zero] at hguard
      omega
    rw [if_neg hguard2]
    rw [if_pos (by omega : pre.length + 1 < pre.length + 3)]
    rw [if_neg (by omega : ¬ (pre.length + 3 - (pre.length + 1) ≠ 2))]
    have hc1 : cidx (pre ++ ':' :: c1 :: c2 :: post) (pre.length + 1) = c1 := by
      have := cidx_append pre (':' :: c1 :: c2 :: post) 1
      simpa using this
    have hc2 : cidx (pre ++ ':' :: c1 :: c2 :: post) (pre.length + 1 + 1) = c2 := by
      rw [show pre.length + 1 + 1 = pre.length + 2 from by omega]
      have := cidx_append pre (':' :: c1 :: c2 :: post) 2
      simpa using this
    rw [hc1, hc2]
    rw [if_neg (by omega : ¬ (pre.length + 1 + 1 + 1 < pre.length + 3))]
    simp [digitsVal]
  | cons d ds ih =>
    intro pre post c1 c2 cond acc start fuel hpre hdig hguard hfuel
    obtain ⟨f, rfl⟩ : ∃ f, fuel = f + 1 := ⟨fuel - 1, by omega⟩
    rw [show parse_args_loop (pre ++ (d :: ds) ++ ':' :: c1 :: c2 :: post) start
        (pre.length + (d :: ds).length + 3) cond 1 acc (pre.length - 1) (f + 1)
      = (if pre.length - 1 + 1 < pre.length + (d :: ds).length + 3 then
          (if isdigitc (cidx (pre ++ (d :: ds) ++ ':' :: c1 :: c2 :: post)
              (pre.length - 1 + 1)) = true then
            parse_args_loop (pre ++ (d :: ds) ++ ':' :: c1 :: c2 :: post) start
              (pre.length + (d :: ds).length + 3) cond 1
              ((acc * 10 + ((cidx (pre ++ (d :: ds) ++ ':' :: c1 :: c2 :: post)
                  (pre.length - 1 + 1)).toNat - 48)) % SIZE_T_MOD)
              (pre.length - 1 + 1) f
          else if cidx (pre ++ (d :: ds) ++ ':' :: c1 :: c2 :: post)
              (pre.length - 1 + 1) ≠ ':' then Except.error ()
          else if acc < 1 ∧ pre.length - 1 + 1 > start then Except.error ()
          else parse_args_loop (pre ++ (d :: ds) ++ ':' :: c1 :: c2 :: post) start
            (pre.length + (d :: ds).length + 3) cond 2 acc (pre.length - 1 + 1) f)
        else Except.ok cond) from rfl]
    have hp1 : pre.length - 1 + 1 = pre.length := by omega
    rw [hp1]
    rw [if_pos (by simp only [List.length_cons]; omega :
      pre.length < pre.length + (d :: ds).length + 3)]
    have hc : cidx (pre ++ (d :: ds) ++ ':' :: c1 :: c2 :: post) (pre.length) = d := by
      have := cidx_append pre ((d :: ds) ++ ':' :: c1 :: c2 :: post) 0
      simpa using this
    rw [hc]
    rw [if_pos (hdig d (List.mem_cons_self d ds))]
    have harg : pre ++ (d :: ds) ++ ':' :: c1 :: c2 :: post
        = (pre ++ [d]) ++ ds ++ ':' :: c1 :: c2 :: post := by simp
    have hlen : pre.length + (d :: ds).length + 3
        = (pre ++ [d]).length + ds.length + 3 := by simp; omega
    have hpos : pre.length = (pre ++ [d]).length - 1 := by simp
    rw [harg, hlen, hpos]
    rw [ih (pre ++ [d]) post c1 c2 cond
      ((acc * 10 + (d.toNat - 48)) % SIZE_T_MOD) start f
      (by simp)
      (fun x hx => hdig x (List.mem_cons_of_mem d hx))
      (by
        simp only [digitsVal, List.foldl_cons] at hguard ⊢
        simp only [List.length_append, List.length_cons, List.length_singleton,
          List.length_nil] at hguard ⊢
        omega)
      (by simp only [List.length_cons] at hfuel; omega)]
    simp only [digitsVal, List.foldl_cons]

/-- C2 (amended): for every 'm' argument list of the form
    `<digits>:<c1><c2>` (exactly two characters after the colon), parse_args
    succeeds and stores c1 — the FIRST character — as the SUCCESS glyph and
    c2 — the second — as the FAILURE glyph (map_chars = (failed, success)),
    the opposite order of what the claim states. -/
theorem c2_glyph_order (pre ds post : List Char) (c1 c2 : Char)
    (cond : exit_condition)
    (hpre : 1 ≤ pre.length)
    (hdig : ∀ d ∈ ds, isdigitc d = true)
    (hval : ds = [] ∨ digitsVal 0 ds ≠ 0) :
    ∃ cond', parse_args cond 'm' (pre ++ ds ++ ':' :: c1 :: c2 :: post)
        pre.length (pre.length + ds.length + 3) = Except.ok cond' ∧
      cond'.map_chars.2 = c1 ∧ cond'.map_chars.1 = c2 := by
  unfold parse_args
  rw [if_neg (by omega : ¬ pre.length < 1)]
  rw [parse_args_loop_glyphs ds pre post c1 c2 cond 0 pre.length
    (pre.length + ds.length + 3 + 1) hpre hdig
    (by
      rcases hval with rfl | hv
      · right; simp
      · left; omega)
    (by omega)]
  refine ⟨_, rfl, ?_, ?_⟩ <;> split <;> rfl

theorem c2_glyph_order_witness :
    ∃ cond', parse_args INIT_EXIT_CONDITION 'm'
        (['('] ++ ['5'] ++ ':' :: 'a' :: 'b' :: [')'])
        (List.length ['(']) (List.length ['('] + List.length ['5'] + 3)
      = Except.ok cond' ∧ cond'.map_chars.2 = 'a' ∧ cond'.map_chars.1 = 'b' :=
  c2_glyph_order ['('] ['5'] [')'] 'a' 'b' INIT_EXIT_CONDITION (by decide)
    (by decide) (Or.inr (by decide))

theorem c10_status_translation_witness :
    exit_cond_status_update 1 0 = 0 ∧ exit_cond_status_update 0 0 = 1 ∧
    exit_cond_status_update 1 2 = 2 ∧ exit_cond_status_update (-1) 5 = 5 := by
  refine ⟨?_, ?_, ?_, ?_⟩
  · simpa using c10_status_translation.1 1 0 (Or.inr rfl) (Or.inl rfl)
  · simpa using c10_status_translation.1 0 0 (Or.inl rfl) (Or.inl rfl)
  · exact c10_status_translation.2.1 1 2 (by norm_num) (by norm_num)
  · exact c10_status_translation.2.2 (-1) 5 (by norm_num)
